import Mathlib

/-
Verification development for the chunk-concatenation engine of the eino
schema package (message, tool-call and tool-result reducers).

The concrete reducer implementations are exercised by the repository's unit
tests (TestConcatMessage, TestConcatToolCalls, TestConcatToolResults) but the
implementation file itself is not part of the provided sources, so the
reducers below are modelled from the specification's domain-reducer rules
(spec sections 4.2 and 4.3) and cross-checked against the expected values
pinned by those unit tests.
-/

set_option autoImplicit false

namespace Eino

/-- Modelled from the spec: the part-kind tag of a multimedia message part
(text / image / audio / video / file). -/
inductive ChatMessagePartType where
  | text
  | imageURL
  | audioURL
  | videoURL
  | fileURL
deriving DecidableEq, Repr

/-- Modelled from the spec: the shared shape of a multimedia part — either a
reference URL or an inline base64 payload, a MIME type, and an extensible
metadata map ("extra").  Metadata values are modelled as strings. -/
structure MessagePartCommon where
  URL : Option String
  Base64Data : Option String
  MIMEType : String
  Extra : List (String × String)
deriving DecidableEq, Repr

/-- Modelled from the spec: one structured assistant-generated content part. -/
structure MessageOutputPart where
  type : ChatMessagePartType
  Text : String
  Image : Option MessagePartCommon
  Audio : Option MessagePartCommon
  Video : Option MessagePartCommon
  File : Option MessagePartCommon
deriving DecidableEq, Repr

/-- Modelled from the spec: one structured user-input content part. -/
structure MessageInputPart where
  type : ChatMessagePartType
  Text : String
  Image : Option MessagePartCommon
  Audio : Option MessagePartCommon
  Video : Option MessagePartCommon
  File : Option MessagePartCommon
deriving DecidableEq, Repr

/-- Modelled from the spec: one legacy flat multi-part content entry. -/
structure ChatMessagePart where
  type : ChatMessagePartType
  Text : String
  URL : String
deriving DecidableEq, Repr

/-- Modelled from the spec: the function name and accumulated argument string
of a tool call. -/
structure FunctionCall where
  Name : String
  Arguments : String
deriving DecidableEq, Repr

/-- Modelled from the spec: a tool-call fragment with an optional
fragment-correlation index, call id, call type and function payload. -/
structure ToolCall where
  Index : Option Int
  ID : String
  type : String
  Function : FunctionCall
deriving DecidableEq, Repr

/-- Modelled from the spec: cached-token sub-counter of the prompt usage. -/
structure PromptTokenDetails where
  CachedTokens : Int
deriving DecidableEq, Repr

/-- Modelled from the spec: token-usage counters of a response. -/
structure TokenUsage where
  PromptTokens : Int
  CompletionTokens : Int
  TotalTokens : Int
  Details : PromptTokenDetails
deriving DecidableEq, Repr

/-- Modelled from the spec: one per-token log-probability entry.  The
floating-point probability value itself is outside the model; the token text
and its byte rendering are kept. -/
structure LogProb where
  Token : String
  Bytes : List Int
deriving DecidableEq, Repr

/-- Modelled from the spec: the log-probability payload of a response. -/
structure LogProbs where
  Content : List LogProb
deriving DecidableEq, Repr

/-- Modelled from the spec: response metadata — finish reason, token usage and
log probabilities. -/
structure ResponseMeta where
  FinishReason : String
  Usage : Option TokenUsage
  LogProbs : Option LogProbs
deriving DecidableEq, Repr

/-- Modelled from the spec: a generated message chunk. -/
structure Message where
  Role : String
  Content : String
  ReasoningContent : String
  Name : String
  MultiContent : List ChatMessagePart
  UserInputMultiContent : List MessageInputPart
  AssistantGenMultiContent : List MessageOutputPart
  ToolCalls : List ToolCall
  ToolCallID : String
  ToolName : String
  ResponseMeta : Option ResponseMeta
deriving DecidableEq, Repr

/-- Modelled from the spec: part-kind tag of a tool-result part. -/
inductive ToolPartType where
  | text
  | image
  | audio
  | video
  | file
deriving DecidableEq, Repr

/-- Modelled from the spec: one typed part of a tool result. -/
structure ToolOutputPart where
  type : ToolPartType
  Text : String
  Image : Option MessagePartCommon
  Audio : Option MessagePartCommon
  Video : Option MessagePartCommon
  File : Option MessagePartCommon
deriving DecidableEq, Repr

/-- Modelled from the spec: a tool-result chunk, an ordered list of typed
parts. -/
structure ToolResult where
  Parts : List ToolOutputPart
deriving DecidableEq, Repr

/-- Modelled from the spec: the error taxonomy of the concatenation engine
(section 7).  Each conflict error carries enough structure to state which
value disagreed; `mediaConflict` names the media type the error message
mentions. -/
inductive ConcatError where
  | nilChunk
  | emptyInput
  | roleMismatch
  | nameMismatch
  | toolCallIDMismatch
  | toolNameMismatch
  | toolCallDiffID
  | toolCallDiffType
  | toolCallDiffFuncName
  | mediaConflict (mediaType : String)
deriving DecidableEq, Repr

/-- Modelled from the spec: the "first non-empty wins, conflicting non-empty
later value is an error" merge policy for atomic string fields. -/
def mergeAtomicField (old cur : String) (e : ConcatError) : Except ConcatError String :=
  if cur = "" then .ok old
  else if old = "" then .ok cur
  else if old = cur then .ok old
  else .error e

/-- Value of an optional string field, the empty string when absent. -/
def optStrVal (o : Option String) : String := o.getD ""

/-- Modelled from the spec: raw string concatenation of two optional base64
payloads (no decode/re-encode); absent on both sides stays absent. -/
def concatOptStr : Option String → Option String → Option String
  | none, none => none
  | a, b => some (optStrVal a ++ optStrVal b)

/-- Insert a key/value pair into a metadata map, overwriting the value of an
existing key in place. -/
def extraInsert : List (String × String) → String → String → List (String × String)
  | [], k, v => [(k, v)]
  | (k', v') :: rest, k, v =>
    if k' = k then (k, v) :: rest else (k', v') :: extraInsert rest k v

/-- Modelled from the spec: union of two metadata maps, the later map's value
winning on key collision. -/
def extraUnion (a b : List (String × String)) : List (String × String) :=
  b.foldl (fun acc kv => extraInsert acc kv.1 kv.2) a

/-! ### Tool-call concatenation -/

/-- Modelled from the spec: the distinct fragment indices occurring in a
tool-call fragment list, in order of first appearance. -/
def firstAppearIndexes (chunks : List ToolCall) : List Int :=
  chunks.foldl
    (fun acc c =>
      match c.Index with
      | some i => if i ∈ acc then acc else acc ++ [i]
      | none => acc)
    []

/-- Accumulator for merging the fragments sharing one index: atomic id, type
and function name plus the accumulated argument string. -/
structure TCAcc where
  id : String
  ty : String
  nm : String
  args : String
deriving DecidableEq, Repr

/-- Modelled from the spec: merge one tool-call fragment into the group
accumulator — ID, type and function name use first-non-empty-wins with a
conflict error on a differing non-empty later value; arguments are
concatenated. -/
def mergeTCStep (acc : TCAcc) (c : ToolCall) : Except ConcatError TCAcc :=
  match mergeAtomicField acc.id c.ID .toolCallDiffID with
  | .error e => .error e
  | .ok id =>
    match mergeAtomicField acc.ty c.type .toolCallDiffType with
    | .error e => .error e
    | .ok ty =>
      match mergeAtomicField acc.nm c.Function.Name .toolCallDiffFuncName with
      | .error e => .error e
      | .ok nm => .ok ⟨id, ty, nm, acc.args ++ c.Function.Arguments⟩

/-- Fold of `mergeTCStep` over a fragment group, stopping at the first
error. -/
def runGroup : TCAcc → List ToolCall → Except ConcatError TCAcc
  | acc, [] => .ok acc
  | acc, c :: rest =>
    match mergeTCStep acc c with
    | .error e => .error e
    | .ok acc' => runGroup acc' rest

/-- Modelled from the spec: merge the fragments sharing index `i` into one
complete tool call carrying that index. -/
def mergeGroup (i : Int) (g : List ToolCall) : Except ConcatError ToolCall :=
  match runGroup ⟨"", "", "", ""⟩ g with
  | .error e => .error e
  | .ok acc => .ok ⟨some i, acc.id, acc.ty, ⟨acc.nm, acc.args⟩⟩

/-- Merge, for each listed index in order, the fragments of `chunks` carrying
that index. -/
def mergeGroups : List Int → List ToolCall → Except ConcatError (List ToolCall)
  | [], _ => .ok []
  | i :: is, chunks =>
    match mergeGroup i (chunks.filter (fun c => decide (c.Index = some i))) with
    | .error e => .error e
    | .ok tc =>
      match mergeGroups is chunks with
      | .error e => .error e
      | .ok tcs => .ok (tc :: tcs)

/-- Modelled from the spec: tool-call fragment concatenation — fragments with
no index are passed through unchanged, in their original relative order,
ahead of all index-correlated calls; fragments sharing an index are merged
into one call, groups ordered by first appearance of their index. -/
def concatToolCallsE (chunks : List ToolCall) : Except ConcatError (List ToolCall) :=
  match mergeGroups (firstAppearIndexes chunks) chunks with
  | .error e => .error e
  | .ok merged => .ok (chunks.filter (fun c => decide (c.Index = none)) ++ merged)

/-- Modelled from the spec: `concatToolCalls` as the callers see it, a
(value, error) pair in the Go style. -/
def concatToolCalls (chunks : List ToolCall) : Option (List ToolCall) × Option ConcatError :=
  match concatToolCallsE chunks with
  | .ok r => (some r, none)
  | .error e => (none, some e)

/-! ### Assistant-generated multi-content merging -/

/-- Default (all-empty) multimedia part payload. -/
def defaultCommon : MessagePartCommon := ⟨none, none, "", []⟩

/-- Modelled from the spec: merge an incoming audio part payload into the
immediately preceding audio payload — base64 payload strings concatenated
raw, MIME type by last-non-empty-wins, URL by last-non-empty-wins, extra
maps unioned with the later key winning. -/
def mergeAudioParts (a b : MessagePartCommon) : MessagePartCommon :=
  { URL := if optStrVal b.URL = "" then a.URL else b.URL
    Base64Data := concatOptStr a.Base64Data b.Base64Data
    MIMEType := if b.MIMEType = "" then a.MIMEType else b.MIMEType
    Extra := extraUnion a.Extra b.Extra }

/-- Modelled from the spec: push one assistant-generated part onto the
reversed output accumulator — a text part merges into a preceding text part,
an audio part merges into a preceding audio part, every other kind (and any
non-matching neighbor) is appended as its own part. -/
def pushOutputPart : List MessageOutputPart → MessageOutputPart → List MessageOutputPart
  | [], p => [p]
  | last :: rest, p =>
    if last.type = ChatMessagePartType.text ∧ p.type = ChatMessagePartType.text then
      { last with Text := last.Text ++ p.Text } :: rest
    else if last.type = ChatMessagePartType.audioURL ∧ p.type = ChatMessagePartType.audioURL then
      { last with
        Audio := some (mergeAudioParts (last.Audio.getD defaultCommon) (p.Audio.getD defaultCommon)) } :: rest
    else p :: last :: rest

/-- Modelled from the spec: scan the incoming chunk's assistant-generated
parts in order, merging each into the accumulated output parts. -/
def mergeOutputParts (acc ps : List MessageOutputPart) : List MessageOutputPart :=
  (ps.foldl pushOutputPart acc.reverse).reverse

/-! ### Message concatenation -/

/-- Intermediate accumulator state of the message reducer. -/
structure MState where
  role : String
  name : String
  toolCallID : String
  toolName : String
  content : String
  reasoning : String
  toolCalls : List ToolCall
  multiContent : List ChatMessagePart
  userInput : List MessageInputPart
  assistantGen : List MessageOutputPart
  hasMeta : Bool
  finishReason : String
  usage : Option TokenUsage
  hasLogProbs : Bool
  logProbs : List LogProb
deriving DecidableEq, Repr

/-- The all-empty initial reducer state. -/
def initMState : MState :=
  ⟨"", "", "", "", "", "", [], [], [], [], false, "", none, false, []⟩

/-- Modelled from the spec: fold one message chunk into the reducer state.
An absent chunk is a nil-chunk error; role, name, tool-call id and tool name
are first-non-empty-wins with a mismatch error on conflict; content,
reasoning content and log-prob entries accumulate; finish reason and usage
are overwritten whole by a later non-empty / non-nil value; multi-content
lists append; assistant-generated parts merge by the part scan. -/
def concatStep (s : MState) (c : Option Message) : Except ConcatError MState :=
  match c with
  | none => .error .nilChunk
  | some m =>
    match mergeAtomicField s.role m.Role .roleMismatch with
    | .error e => .error e
    | .ok role =>
      match mergeAtomicField s.name m.Name .nameMismatch with
      | .error e => .error e
      | .ok name =>
        match mergeAtomicField s.toolCallID m.ToolCallID .toolCallIDMismatch with
        | .error e => .error e
        | .ok tcid =>
          match mergeAtomicField s.toolName m.ToolName .toolNameMismatch with
          | .error e => .error e
          | .ok tname =>
            .ok
              { role := role
                name := name
                toolCallID := tcid
                toolName := tname
                content := s.content ++ m.Content
                reasoning := s.reasoning ++ m.ReasoningContent
                toolCalls := s.toolCalls ++ m.ToolCalls
                multiContent := s.multiContent ++ m.MultiContent
                userInput := s.userInput ++ m.UserInputMultiContent
                assistantGen := mergeOutputParts s.assistantGen m.AssistantGenMultiContent
                hasMeta := s.hasMeta || m.ResponseMeta.isSome
                finishReason :=
                  match m.ResponseMeta with
                  | some rm => if rm.FinishReason = "" then s.finishReason else rm.FinishReason
                  | none => s.finishReason
                usage :=
                  match m.ResponseMeta with
                  | some rm =>
                    match rm.Usage with
                    | some u => some u
                    | none => s.usage
                  | none => s.usage
                hasLogProbs :=
                  s.hasLogProbs ||
                    (match m.ResponseMeta with
                     | some rm => rm.LogProbs.isSome
                     | none => false)
                logProbs :=
                  s.logProbs ++
                    (match m.ResponseMeta with
                     | some rm =>
                       match rm.LogProbs with
                       | some lp => lp.Content
                       | none => []
                     | none => []) }

/-- Fold of `concatStep` over the chunk list, stopping at the first error. -/
def runConcat : MState → List (Option Message) → Except ConcatError MState
  | s, [] => .ok s
  | s, c :: rest =>
    match concatStep s c with
    | .error e => .error e
    | .ok s' => runConcat s' rest

/-- Assemble the final message from the reducer state and the merged
tool-call list. -/
def assembleMessage (s : MState) (mergedTC : List ToolCall) : Message :=
  { Role := s.role
    Content := s.content
    ReasoningContent := s.reasoning
    Name := s.name
    MultiContent := s.multiContent
    UserInputMultiContent := s.userInput
    AssistantGenMultiContent := s.assistantGen
    ToolCalls := mergedTC
    ToolCallID := s.toolCallID
    ToolName := s.toolName
    ResponseMeta :=
      if s.hasMeta then
        some
          { FinishReason := s.finishReason
            Usage := s.usage
            LogProbs := if s.hasLogProbs then some ⟨s.logProbs⟩ else none }
      else none }

/-- Modelled from the spec: message concatenation — empty input is an
empty-input error; otherwise the chunks are folded left-to-right and the
collected tool-call fragments are merged at the end. -/
def ConcatMessagesE (msgs : List (Option Message)) : Except ConcatError Message :=
  if msgs.isEmpty then .error .emptyInput
  else
    match runConcat initMState msgs with
    | .error e => .error e
    | .ok s =>
      match concatToolCallsE s.toolCalls with
      | .error e => .error e
      | .ok merged => .ok (assembleMessage s merged)

/-- Modelled from the spec: `ConcatMessages` as the callers see it, a
(value, error) pair in the Go style. -/
def ConcatMessages (msgs : List (Option Message)) : Option Message × Option ConcatError :=
  match ConcatMessagesE msgs with
  | .ok m => (some m, none)
  | .error e => (none, some e)

/-! ### Tool-result concatenation -/

/-- Name of a tool-result media type as it appears in a conflict error
message. -/
def partTypeName : ToolPartType → String
  | .text => "text"
  | .image => "image"
  | .audio => "audio"
  | .video => "video"
  | .file => "file"

/-- The multimedia payload carried by a tool-result part of a given media
kind (the all-empty payload when absent). -/
def getCommon (p : ToolOutputPart) : MessagePartCommon :=
  (match p.type with
   | ToolPartType.image => p.Image
   | ToolPartType.audio => p.Audio
   | ToolPartType.video => p.Video
   | ToolPartType.file => p.File
   | ToolPartType.text => none).getD defaultCommon

/-- Replace the multimedia payload of a tool-result part, at the slot of its
media kind. -/
def setCommon (p : ToolOutputPart) (c : MessagePartCommon) : ToolOutputPart :=
  match p.type with
  | ToolPartType.image => { p with Image := some c }
  | ToolPartType.audio => { p with Audio := some c }
  | ToolPartType.video => { p with Video := some c }
  | ToolPartType.file => { p with File := some c }
  | ToolPartType.text => p

/-- Modelled from the spec: push one tool-result part onto the reversed
part accumulator of a single chunk, merging adjacent text parts by
concatenation and leaving every other part as-is. -/
def pushToolPart (racc : List ToolOutputPart) (p : ToolOutputPart) : List ToolOutputPart :=
  match racc with
  | [] => [p]
  | last :: rest =>
    if last.type = ToolPartType.text ∧ p.type = ToolPartType.text then
      { last with Text := last.Text ++ p.Text } :: rest
    else p :: last :: rest

/-- Modelled from the spec: pass 1 of the tool-result reducer — merge
adjacent text parts within one chunk's part list. -/
def mergeAdjacentTexts (ps : List ToolOutputPart) : List ToolOutputPart :=
  (ps.foldl pushToolPart []).reverse

/-- Modelled from the spec: unify the field values of one media type coming
from two different chunks — a differing non-empty URL, a differing non-empty
base64 payload, a URL and a base64 payload both non-empty in the unified
part, or a differing non-empty MIME type is a conflict error naming the
media type; otherwise non-empty values fill empty slots and the extra maps
are unioned with the later chunk's key winning. -/
def mergeMediaCommon (tname : String) (a b : MessagePartCommon) : Except ConcatError MessagePartCommon :=
  if optStrVal a.URL ≠ "" ∧ optStrVal b.URL ≠ "" ∧ optStrVal a.URL ≠ optStrVal b.URL then
    .error (.mediaConflict tname)
  else if optStrVal a.Base64Data ≠ "" ∧ optStrVal b.Base64Data ≠ "" ∧
      optStrVal a.Base64Data ≠ optStrVal b.Base64Data then
    .error (.mediaConflict tname)
  else
    if optStrVal (if optStrVal b.URL = "" then a.URL else b.URL) ≠ "" ∧
        optStrVal (if optStrVal b.Base64Data = "" then a.Base64Data else b.Base64Data) ≠ "" then
      .error (.mediaConflict tname)
    else if a.MIMEType ≠ "" ∧ b.MIMEType ≠ "" ∧ a.MIMEType ≠ b.MIMEType then
      .error (.mediaConflict tname)
    else
      .ok
        { URL := if optStrVal b.URL = "" then a.URL else b.URL
          Base64Data := if optStrVal b.Base64Data = "" then a.Base64Data else b.Base64Data
          MIMEType := if b.MIMEType = "" then a.MIMEType else b.MIMEType
          Extra := extraUnion a.Extra b.Extra }

/-- Modelled from the spec: insert one (already intra-chunk-merged) part into
the accumulated result parts — a text part is appended; a media part merges
into the existing part of the same media type if one exists (a rich-media
type appears at most once across the entire result), else it is appended. -/
def insertToolPart : List ToolOutputPart → ToolOutputPart → Except ConcatError (List ToolOutputPart)
  | [], p => .ok [p]
  | q :: rest, p =>
    if p.type ≠ ToolPartType.text ∧ q.type = p.type then
      match mergeMediaCommon (partTypeName p.type) (getCommon q) (getCommon p) with
      | .error e => .error e
      | .ok c => .ok (setCommon q c :: rest)
    else
      match insertToolPart rest p with
      | .error e => .error e
      | .ok r => .ok (q :: r)

/-- Insert each part of one chunk into the accumulated result parts,
stopping at the first conflict. -/
def addChunkParts : List ToolOutputPart → List ToolOutputPart → Except ConcatError (List ToolOutputPart)
  | acc, [] => .ok acc
  | acc, p :: rest =>
    match insertToolPart acc p with
    | .error e => .error e
    | .ok acc' => addChunkParts acc' rest

/-- Modelled from the spec: fold of the tool-result reducer over the chunk
list — absent chunks are skipped (a tool result has a natural vacuous
value), each present chunk is intra-merged and then inserted into the
accumulated parts. -/
def runToolResults : List ToolOutputPart → List (Option ToolResult) → Except ConcatError (List ToolOutputPart)
  | acc, [] => .ok acc
  | acc, none :: rest => runToolResults acc rest
  | acc, some tr :: rest =>
    match addChunkParts acc (mergeAdjacentTexts tr.Parts) with
    | .error e => .error e
    | .ok acc' => runToolResults acc' rest

/-- Modelled from the spec: tool-result concatenation. -/
def ConcatToolResultsE (chunks : List (Option ToolResult)) : Except ConcatError ToolResult :=
  match runToolResults [] chunks with
  | .error e => .error e
  | .ok parts => .ok ⟨parts⟩

/-- Modelled from the spec: `ConcatToolResults` as the callers see it, a
(value, error) pair in the Go style. -/
def ConcatToolResults (chunks : List (Option ToolResult)) : Option ToolResult × Option ConcatError :=
  match ConcatToolResultsE chunks with
  | .ok r => (some r, none)
  | .error e => (none, some e)

/-! ### Specification-side characterizations and concrete fixtures -/

/-- Boolean success test for an `Except` result. -/
def exceptOk {ε α : Type} : Except ε α → Bool
  | .ok _ => true
  | .error _ => false

/-- The first non-empty of two strings (the "first non-empty wins" policy
value when the two values do not conflict). -/
def firstNonEmpty (a b : String) : String :=
  if a = "" then b else a

/-- Concatenation, in list order, of the argument strings of a tool-call
fragment list (the spec-side description of how a merged call's
`Function.Arguments` is built). -/
def argsJoin (g : List ToolCall) : String :=
  g.foldl (fun s c => s ++ c.Function.Arguments) ""

/-- Spec-side fold step for the finish reason: the last chunk providing a
non-empty finish reason wins. -/
def frStep (acc : String) : Option Message → String
  | some m =>
    match m.ResponseMeta with
    | some rm => if rm.FinishReason = "" then acc else rm.FinishReason
    | none => acc
  | none => acc

/-- Spec-side fold step for the usage: the last chunk providing a non-nil
usage value wins, the value replacing the prior one whole. -/
def usageStep (acc : Option TokenUsage) : Option Message → Option TokenUsage
  | some m =>
    match m.ResponseMeta with
    | some rm =>
      match rm.Usage with
      | some u => some u
      | none => acc
    | none => acc
  | none => acc

/-- Spec-side description of the final finish reason: the last non-empty
finish reason among the chunks, the empty string when none provides one. -/
def lastFinishReason (msgs : List (Option Message)) : String :=
  msgs.foldl frStep ""

/-- Spec-side description of the final usage: the last non-nil usage among
the chunks. -/
def lastUsage (msgs : List (Option Message)) : Option TokenUsage :=
  msgs.foldl usageStep none

/-- An assistant-generated part holding only text. -/
def textOutPart (s : String) : MessageOutputPart :=
  ⟨ChatMessagePartType.text, s, none, none, none, none⟩

/-- An assistant-generated audio part with the given payload. -/
def audioOutPart (c : MessagePartCommon) : MessageOutputPart :=
  ⟨ChatMessagePartType.audioURL, "", none, some c, none, none⟩

/-- A tool-result part holding only text. -/
def toolTextPart (s : String) : ToolOutputPart :=
  ⟨ToolPartType.text, s, none, none, none, none⟩

/-- A tool-result media part of the given kind with the given payload. -/
def mkToolMediaPart (t : ToolPartType) (c : MessagePartCommon) : ToolOutputPart :=
  { type := t
    Text := ""
    Image := if t = ToolPartType.image then some c else none
    Audio := if t = ToolPartType.audio then some c else none
    Video := if t = ToolPartType.video then some c else none
    File := if t = ToolPartType.file then some c else none }

/-- The all-empty message chunk. -/
def emptyMessage : Message :=
  ⟨"", "", "", "", [], [], [], [], "", "", none⟩

/-- Concrete input of the repository's `multi_tool_call` unit test. -/
def tcTestChunks : List ToolCall :=
  [⟨some 0, "tool_call_id", "", ⟨"", ""⟩⟩,
   ⟨some 0, "", "function", ⟨"", "call me please"⟩⟩,
   ⟨some 0, "tool_call_id", "", ⟨"", ""⟩⟩,
   ⟨some 1, "tool_call_id", "", ⟨"", ""⟩⟩,
   ⟨some 1, "", "function", ⟨"", "call me please"⟩⟩,
   ⟨some 1, "tool_call_id", "", ⟨"", ""⟩⟩,
   ⟨none, "22", "", ⟨"", ""⟩⟩,
   ⟨none, "44", "", ⟨"", ""⟩⟩]

/-- Expected output of the repository's `multi_tool_call` unit test. -/
def tcTestExpected : List ToolCall :=
  [⟨none, "22", "", ⟨"", ""⟩⟩,
   ⟨none, "44", "", ⟨"", ""⟩⟩,
   ⟨some 0, "tool_call_id", "function", ⟨"", "call me please"⟩⟩,
   ⟨some 1, "tool_call_id", "function", ⟨"", "call me please"⟩⟩]

/-- Concrete input of the repository's `response_meta` unit test, including
the appended fifth chunk that overwrites the finish reason. -/
def metaTestMsgs : List (Option Message) :=
  [some { emptyMessage with Role := "assistant" },
   some { emptyMessage with
            Role := "assistant"
            ResponseMeta := some ⟨"", some ⟨20, 10, 30, ⟨10⟩⟩, none⟩ },
   some { emptyMessage with
            Role := "assistant"
            ResponseMeta := some ⟨"stop", none, none⟩ },
   some { emptyMessage with
            Role := "assistant"
            ResponseMeta := some ⟨"", some ⟨30, 15, 45, ⟨15⟩⟩, none⟩ },
   some { emptyMessage with
            Role := "assistant"
            ResponseMeta := some ⟨"tool_calls", none, none⟩ }]

/-- Final message of the `response_meta` unit test sequence. -/
def metaTestResult : Message :=
  { emptyMessage with
      Role := "assistant"
      ResponseMeta := some ⟨"tool_calls", some ⟨30, 15, 45, ⟨15⟩⟩, none⟩ }

/-- First chunk of the repository's "concat assistant multi content with
extra" unit test. -/
def audioExtraMsg1 : Message :=
  { emptyMessage with
      Role := "assistant"
      AssistantGenMultiContent :=
        [audioOutPart ⟨none, some "dGVzdF9hdWRpb18x", "", [("key1", "val1")]⟩] }

/-- Second chunk of the repository's "concat assistant multi content with
extra" unit test. -/
def audioExtraMsg2 : Message :=
  { emptyMessage with
      Role := "assistant"
      AssistantGenMultiContent :=
        [audioOutPart ⟨none, some "dGVzdF9hdWRpb18y", "", [("key2", "val2")]⟩] }

/-- Expected merged message of the "concat assistant multi content with
extra" unit test. -/
def audioExtraMerged : Message :=
  { emptyMessage with
      Role := "assistant"
      AssistantGenMultiContent :=
        [audioOutPart
          ⟨none, some "dGVzdF9hdWRpb18xdGVzdF9hdWRpb18y", "",
           [("key1", "val1"), ("key2", "val2")]⟩] }

/-! ## Helper lemmas -/

theorem str_empty_append (s : String) : "" ++ s = s := by
  cases s
  rfl

theorem str_append_empty (s : String) : s ++ "" = s := by
  cases s
  simp [String.append]

theorem mergeAtomicField_emptyOld (b : String) (e : ConcatError) :
    mergeAtomicField "" b e = .ok b := by
  unfold mergeAtomicField
  by_cases hb : b = "" <;> simp [hb]

theorem mergeAtomicField_conflict {a b : String} (e : ConcatError)
    (ha : a ≠ "") (hb : b ≠ "") (hab : a ≠ b) :
    mergeAtomicField a b e = .error e := by
  unfold mergeAtomicField
  rw [if_neg hb, if_neg ha, if_neg hab]

theorem mergeAtomicField_compat (a b : String) (e : ConcatError)
    (h : b = "" ∨ a = "" ∨ a = b) :
    mergeAtomicField a b e = .ok (firstNonEmpty a b) := by
  unfold mergeAtomicField firstNonEmpty
  by_cases hb : b = ""
  · subst hb
    by_cases ha : a = "" <;> simp [ha]
  · rw [if_neg hb]
    by_cases ha : a = ""
    · simp [ha]
    · rw [if_neg ha, if_neg ha]
      rcases h with h | h | h
      · exact absurd h hb
      · exact absurd h ha
      · rw [if_pos h]

theorem runToolResults_allNil (chunks : List (Option ToolResult)) :
    ∀ acc, (∀ c ∈ chunks, c = none) → runToolResults acc chunks = .ok acc := by
  induction chunks with
  | nil => intro acc _; rfl
  | cons c rest ih =>
    intro acc h
    have hc : c = none := h c (List.mem_cons_self c rest)
    subst hc
    exact ih acc (fun x hx => h x (List.mem_cons_of_mem _ hx))

theorem runConcat_nil_mem (msgs : List (Option Message)) :
    ∀ s, none ∈ msgs → ∃ e, runConcat s msgs = .error e := by
  induction msgs with
  | nil => intro s h; simp at h
  | cons c rest ih =>
    intro s h
    cases hc : concatStep s c with
    | error e =>
      refine ⟨e, ?_⟩
      simp only [runConcat]
      rw [hc]
    | ok s' =>
      have hr : none ∈ rest := by
        rcases List.mem_cons.mp h with h0 | h0
        · rw [← h0] at hc
          simp [concatStep] at hc
        · exact h0
      obtain ⟨e, he⟩ := ih s' hr
      refine ⟨e, ?_⟩
      simp only [runConcat]
      rw [hc]
      exact he

theorem runConcat_append (l1 l2 : List (Option Message)) :
    ∀ s, runConcat s (l1 ++ l2) =
      match runConcat s l1 with
      | .error e => .error e
      | .ok s' => runConcat s' l2 := by
  induction l1 with
  | nil => intro s; rfl
  | cons c rest ih =>
    intro s
    simp only [List.cons_append, runConcat]
    cases hc : concatStep s c with
    | error e => rfl
    | ok s' => exact ih s'

/-! ## Claims -/

/-- C3: `ConcatToolResults` merges adjacent text parts only within a single
chunk's part list, never across chunk boundaries — two chunks each holding
one text part yield two separate text parts, while one chunk holding those
two adjacent text parts yields one merged text part. -/
theorem claim3_text_merge_intra_chunk_only (s1 s2 : String) :
    ConcatToolResults [some ⟨[toolTextPart s1]⟩, some ⟨[toolTextPart s2]⟩] =
      (some ⟨[toolTextPart s1, toolTextPart s2]⟩, none) ∧
    ConcatToolResults [some ⟨[toolTextPart s1, toolTextPart s2]⟩] =
      (some ⟨[toolTextPart (s1 ++ s2)]⟩, none) := by
  constructor <;> rfl

/-- C10: whenever `ConcatMessages` returns an error, the returned message is
nil — no partially merged message is ever returned alongside an error. -/
theorem claim10_error_implies_nil_message (msgs : List (Option Message)) (e : ConcatError)
    (h : (ConcatMessages msgs).2 = some e) : (ConcatMessages msgs).1 = none := by
  unfold ConcatMessages at h ⊢
  cases hE : ConcatMessagesE msgs
  · rfl
  · rw [hE] at h
    simp at h

theorem claim10_witness :
    (ConcatMessages []).2 = some ConcatError.emptyInput ∧ (ConcatMessages []).1 = none :=
  ⟨rfl, claim10_error_implies_nil_message [] ConcatError.emptyInput rfl⟩

/-- C8: `ConcatToolResults` on an empty or all-nil chunk list succeeds with
an empty result, unlike message concatenation, which fails on an empty
input. -/
theorem claim8_tool_results_vacuous :
    (∀ chunks : List (Option ToolResult), (∀ c ∈ chunks, c = none) →
       ConcatToolResults chunks = (some ⟨[]⟩, none)) ∧
    ConcatMessages [] = (none, some ConcatError.emptyInput) := by
  constructor
  · intro chunks h
    unfold ConcatToolResults ConcatToolResultsE
    rw [runToolResults_allNil chunks [] h]
  · rfl

theorem claim8_witness :
    ConcatToolResults [none, none, none] = (some ⟨[]⟩, none) ∧
    ConcatMessages [] = (none, some ConcatError.emptyInput) :=
  ⟨claim8_tool_results_vacuous.1 [none, none, none] (by decide),
   claim8_tool_results_vacuous.2⟩

/-- C2 counterexample: a chunk sequence made only of nil chunks does NOT
make `ConcatToolResults` fail with a nil-chunk error — it succeeds with an
empty result, refuting the claim that every concatenation operation fails
with `NilChunkError` whenever any chunk is nil. -/
theorem claim2_counterexample :
    ConcatToolResults [none, none] = (some ⟨[]⟩, none) ∧
    (ConcatToolResults [none, none]).2 ≠ some ConcatError.nilChunk := by
  constructor
  · rfl
  · decide

/-- C2 (amended): message concatenation never returns a message when the
sequence contains a nil chunk, and fails with `NilChunkError` whenever the
chunks before the nil one merge without error; `ConcatToolResults` instead
skips nil chunks, succeeding with an empty result on an all-nil list. -/
theorem claim2_amended_nil_chunk_behavior :
    (∀ msgs : List (Option Message), none ∈ msgs →
       (ConcatMessages msgs).1 = none ∧ ((ConcatMessages msgs).2).isSome = true) ∧
    (∀ pre post : List (Option Message), exceptOk (runConcat initMState pre) = true →
       ConcatMessages (pre ++ none :: post) = (none, some ConcatError.nilChunk)) ∧
    (∀ chunks : List (Option ToolResult), (∀ c ∈ chunks, c = none) →
       ConcatToolResults chunks = (some ⟨[]⟩, none)) := by
  refine ⟨?_, ?_, ?_⟩
  · intro msgs h
    cases msgs with
    | nil => simp at h
    | cons c rest =>
      obtain ⟨e, he⟩ := runConcat_nil_mem (c :: rest) initMState h
      simp [ConcatMessages, ConcatMessagesE, he]
  · intro pre post hok
    cases hr : runConcat initMState pre with
    | error e =>
      rw [hr] at hok
      simp [exceptOk] at hok
    | ok s =>
      have hrun : runConcat initMState (pre ++ none :: post) = .error .nilChunk := by
        rw [runConcat_append, hr]
        rfl
      simp [ConcatMessages, ConcatMessagesE, hrun]
  · intro chunks h
    unfold ConcatToolResults ConcatToolResultsE
    rw [runToolResults_allNil chunks [] h]

theorem ConcatMessages_ok {msgs : List (Option Message)} {m : Message}
    (h : ConcatMessages msgs = (some m, none)) :
    ∃ s merged, runConcat initMState msgs = .ok s ∧
      concatToolCallsE s.toolCalls = .ok merged ∧ m = assembleMessage s merged := by
  cases hne : msgs.isEmpty with
  | true => simp [ConcatMessages, ConcatMessagesE, hne] at h
  | false =>
    cases hr : runConcat initMState msgs with
    | error e => simp [ConcatMessages, ConcatMessagesE, hne, hr] at h
    | ok s =>
      cases htc : concatToolCallsE s.toolCalls with
      | error e => simp [ConcatMessages, ConcatMessagesE, hne, hr, htc] at h
      | ok merged =>
        simp [ConcatMessages, ConcatMessagesE, hne, hr, htc] at h
        exact ⟨s, merged, rfl, htc, h.symm⟩

theorem concatStep_ok_state {s : MState} {m : Message} {s' : MState}
    (h : concatStep s (some m) = .ok s') :
    s'.finishReason = frStep s.finishReason (some m) ∧
    s'.usage = usageStep s.usage (some m) := by
  unfold concatStep at h
  cases h1 : mergeAtomicField s.role m.Role ConcatError.roleMismatch with
  | error e => simp [h1] at h
  | ok role =>
    cases h2 : mergeAtomicField s.name m.Name ConcatError.nameMismatch with
    | error e => simp [h1, h2] at h
    | ok name =>
      cases h3 : mergeAtomicField s.toolCallID m.ToolCallID ConcatError.toolCallIDMismatch with
      | error e => simp [h1, h2, h3] at h
      | ok tcid =>
        cases h4 : mergeAtomicField s.toolName m.ToolName ConcatError.toolNameMismatch with
        | error e => simp [h1, h2, h3, h4] at h
        | ok tname =>
          simp [h1, h2, h3, h4] at h
          rw [← h]
          exact ⟨rfl, rfl⟩

theorem runConcat_ok_meta (msgs : List (Option Message)) :
    ∀ s s', runConcat s msgs = .ok s' →
      s'.finishReason = msgs.foldl frStep s.finishReason ∧
      s'.usage = msgs.foldl usageStep s.usage := by
  induction msgs with
  | nil =>
    intro s s' h
    simp [runConcat] at h
    rw [← h]
    exact ⟨rfl, rfl⟩
  | cons c rest ih =>
    intro s s' h
    simp only [runConcat] at h
    cases hc : concatStep s c with
    | error e => rw [hc] at h; simp at h
    | ok s1 =>
      rw [hc] at h
      have hfields : s1.finishReason = frStep s.finishReason c ∧
          s1.usage = usageStep s.usage c := by
        cases c with
        | none => simp [concatStep] at hc
        | some m => exact concatStep_ok_state hc
      rw [List.foldl_cons, List.foldl_cons, ← hfields.1, ← hfields.2]
      exact ih s1 s' h

/-- C6: in `ConcatMessages`, the response metadata's finish reason and usage
are replaced whole by the last chunk providing a non-empty / non-nil value
(no summing of usage counters): the final values equal the spec-side
"last non-empty / last non-nil wins" folds over the chunk sequence. -/
theorem claim6_response_meta_last_wins (msgs : List (Option Message)) (m : Message)
    (rm : ResponseMeta) (h : ConcatMessages msgs = (some m, none))
    (hrm : m.ResponseMeta = some rm) :
    rm.FinishReason = lastFinishReason msgs ∧ rm.Usage = lastUsage msgs := by
  obtain ⟨s, merged, hr, htc, hm⟩ := ConcatMessages_ok h
  subst hm
  have hmeta := runConcat_ok_meta msgs initMState s hr
  unfold assembleMessage at hrm
  cases hh : s.hasMeta with
  | false => rw [hh] at hrm; simp at hrm
  | true =>
    rw [hh] at hrm
    simp at hrm
    constructor
    · rw [← hrm]
      exact hmeta.1
    · rw [← hrm]
      exact hmeta.2

theorem claim6_witness :
    (⟨"tool_calls", some ⟨30, 15, 45, ⟨15⟩⟩, none⟩ : ResponseMeta).FinishReason =
        lastFinishReason metaTestMsgs ∧
    (⟨"tool_calls", some ⟨30, 15, 45, ⟨15⟩⟩, none⟩ : ResponseMeta).Usage =
        lastUsage metaTestMsgs :=
  claim6_response_meta_last_wins metaTestMsgs metaTestResult
    ⟨"tool_calls", some ⟨30, 15, 45, ⟨15⟩⟩, none⟩ (by decide) (by decide)

theorem concatStep_init_never_err (m : Message) :
    ∃ s1, concatStep initMState (some m) = .ok s1 ∧ s1.role = m.Role ∧ s1.name = m.Name ∧
      s1.toolCallID = m.ToolCallID ∧ s1.toolName = m.ToolName := by
  simp only [concatStep, initMState]
  rw [mergeAtomicField_emptyOld, mergeAtomicField_emptyOld, mergeAtomicField_emptyOld,
    mergeAtomicField_emptyOld]
  exact ⟨_, rfl, rfl, rfl, rfl, rfl⟩

theorem msgs_role_conflict (m1 m2 : Message) (h1 : m1.Role ≠ "") (h2 : m2.Role ≠ "")
    (h12 : m1.Role ≠ m2.Role) :
    ConcatMessages [some m1, some m2] = (none, some ConcatError.roleMismatch) := by
  obtain ⟨s1, hs1, hrole, _, _, _⟩ := concatStep_init_never_err m1
  have herr : concatStep s1 (some m2) = .error .roleMismatch := by
    simp only [concatStep]
    rw [hrole, mergeAtomicField_conflict _ h1 h2 h12]
  simp [ConcatMessages, ConcatMessagesE, runConcat, hs1, herr]

theorem msgs_name_conflict (m1 m2 : Message)
    (hR : m2.Role = "" ∨ m1.Role = "" ∨ m1.Role = m2.Role)
    (h1 : m1.Name ≠ "") (h2 : m2.Name ≠ "") (h12 : m1.Name ≠ m2.Name) :
    ConcatMessages [some m1, some m2] = (none, some ConcatError.nameMismatch) := by
  obtain ⟨s1, hs1, hrole, hname, _, _⟩ := concatStep_init_never_err m1
  have herr : concatStep s1 (some m2) = .error .nameMismatch := by
    simp only [concatStep]
    rw [hrole, mergeAtomicField_compat m1.Role m2.Role _ hR, hname,
      mergeAtomicField_conflict _ h1 h2 h12]
  simp [ConcatMessages, ConcatMessagesE, runConcat, hs1, herr]

theorem msgs_tcid_conflict (m1 m2 : Message)
    (hR : m2.Role = "" ∨ m1.Role = "" ∨ m1.Role = m2.Role)
    (hN : m2.Name = "" ∨ m1.Name = "" ∨ m1.Name = m2.Name)
    (h1 : m1.ToolCallID ≠ "") (h2 : m2.ToolCallID ≠ "") (h12 : m1.ToolCallID ≠ m2.ToolCallID) :
    ConcatMessages [some m1, some m2] = (none, some ConcatError.toolCallIDMismatch) := by
  obtain ⟨s1, hs1, hrole, hname, htcid, _⟩ := concatStep_init_never_err m1
  have herr : concatStep s1 (some m2) = .error .toolCallIDMismatch := by
    simp only [concatStep]
    rw [hrole, mergeAtomicField_compat m1.Role m2.Role _ hR, hname,
      mergeAtomicField_compat m1.Name m2.Name _ hN, htcid,
      mergeAtomicField_conflict _ h1 h2 h12]
  simp [ConcatMessages, ConcatMessagesE, runConcat, hs1, herr]

theorem mergeTCStep_empty (c : ToolCall) :
    mergeTCStep ⟨"", "", "", ""⟩ c =
      .ok ⟨c.ID, c.type, c.Function.Name, c.Function.Arguments⟩ := by
  simp only [mergeTCStep]
  rw [mergeAtomicField_emptyOld, mergeAtomicField_emptyOld, mergeAtomicField_emptyOld,
    str_empty_append]

theorem tc_two_chunks_firstAppear (t1 t2 : ToolCall) (i : Int)
    (ht1 : t1.Index = some i) (ht2 : t2.Index = some i) :
    firstAppearIndexes [t1, t2] = [i] := by
  simp [firstAppearIndexes, ht1, ht2]

theorem tc_two_chunks_filterNone (t1 t2 : ToolCall) (i : Int)
    (ht1 : t1.Index = some i) (ht2 : t2.Index = some i) :
    List.filter (fun c => decide (c.Index = none)) [t1, t2] = [] := by
  simp [List.filter, ht1, ht2]

theorem tc_two_chunks_filterIdx (t1 t2 : ToolCall) (i : Int)
    (ht1 : t1.Index = some i) (ht2 : t2.Index = some i) :
    List.filter (fun c => decide (c.Index = some i)) [t1, t2] = [t1, t2] := by
  simp [List.filter, ht1, ht2]

theorem tc_pair_error (t1 t2 : ToolCall) (i : Int) (e : ConcatError)
    (ht1 : t1.Index = some i) (ht2 : t2.Index = some i)
    (herr : mergeTCStep ⟨t1.ID, t1.type, t1.Function.Name, t1.Function.Arguments⟩ t2 =
      .error e) :
    concatToolCalls [t1, t2] = (none, some e) := by
  have hrg : runGroup ⟨"", "", "", ""⟩ [t1, t2] = .error e := by
    simp [runGroup, mergeTCStep_empty t1, herr]
  have hmg : mergeGroup i [t1, t2] = .error e := by
    simp [mergeGroup, hrg]
  simp [concatToolCalls, concatToolCallsE, tc_two_chunks_firstAppear t1 t2 i ht1 ht2,
    tc_two_chunks_filterIdx t1 t2 i ht1 ht2, mergeGroups, hmg]

theorem tc_id_conflict (t1 t2 : ToolCall) (i : Int)
    (ht1 : t1.Index = some i) (ht2 : t2.Index = some i)
    (h1 : t1.ID ≠ "") (h2 : t2.ID ≠ "") (h12 : t1.ID ≠ t2.ID) :
    concatToolCalls [t1, t2] = (none, some ConcatError.toolCallDiffID) := by
  refine tc_pair_error t1 t2 i _ ht1 ht2 ?_
  simp only [mergeTCStep]
  rw [mergeAtomicField_conflict _ h1 h2 h12]

theorem tc_type_conflict (t1 t2 : ToolCall) (i : Int)
    (ht1 : t1.Index = some i) (ht2 : t2.Index = some i)
    (hID : t2.ID = "" ∨ t1.ID = "" ∨ t1.ID = t2.ID)
    (h1 : t1.type ≠ "") (h2 : t2.type ≠ "") (h12 : t1.type ≠ t2.type) :
    concatToolCalls [t1, t2] = (none, some ConcatError.toolCallDiffType) := by
  refine tc_pair_error t1 t2 i _ ht1 ht2 ?_
  simp only [mergeTCStep]
  rw [mergeAtomicField_compat t1.ID t2.ID _ hID, mergeAtomicField_conflict _ h1 h2 h12]

theorem tc_funcName_conflict (t1 t2 : ToolCall) (i : Int)
    (ht1 : t1.Index = some i) (ht2 : t2.Index = some i)
    (hID : t2.ID = "" ∨ t1.ID = "" ∨ t1.ID = t2.ID)
    (hTy : t2.type = "" ∨ t1.type = "" ∨ t1.type = t2.type)
    (h1 : t1.Function.Name ≠ "") (h2 : t2.Function.Name ≠ "")
    (h12 : t1.Function.Name ≠ t2.Function.Name) :
    concatToolCalls [t1, t2] = (none, some ConcatError.toolCallDiffFuncName) := by
  refine tc_pair_error t1 t2 i _ ht1 ht2 ?_
  simp only [mergeTCStep]
  rw [mergeAtomicField_compat t1.ID t2.ID _ hID, mergeAtomicField_compat t1.type t2.type _ hTy,
    mergeAtomicField_conflict _ h1 h2 h12]

theorem tc_pair_accept (t1 t2 : ToolCall) (i : Int)
    (ht1 : t1.Index = some i) (ht2 : t2.Index = some i)
    (hID : t2.ID = "" ∨ t1.ID = "" ∨ t1.ID = t2.ID)
    (hTy : t2.type = "" ∨ t1.type = "" ∨ t1.type = t2.type)
    (hNm : t2.Function.Name = "" ∨ t1.Function.Name = "" ∨
      t1.Function.Name = t2.Function.Name) :
    concatToolCalls [t1, t2] =
      (some [⟨some i, firstNonEmpty t1.ID t2.ID, firstNonEmpty t1.type t2.type,
        ⟨firstNonEmpty t1.Function.Name t2.Function.Name,
         t1.Function.Arguments ++ t2.Function.Arguments⟩⟩], none) := by
  have hstep2 : mergeTCStep ⟨t1.ID, t1.type, t1.Function.Name, t1.Function.Arguments⟩ t2 =
      .ok ⟨firstNonEmpty t1.ID t2.ID, firstNonEmpty t1.type t2.type,
        firstNonEmpty t1.Function.Name t2.Function.Name,
        t1.Function.Arguments ++ t2.Function.Arguments⟩ := by
    unfold mergeTCStep
    rw [mergeAtomicField_compat t1.ID t2.ID _ hID, mergeAtomicField_compat t1.type t2.type _ hTy,
      mergeAtomicField_compat t1.Function.Name t2.Function.Name _ hNm]
  have hrg : runGroup ⟨"", "", "", ""⟩ [t1, t2] =
      .ok ⟨firstNonEmpty t1.ID t2.ID, firstNonEmpty t1.type t2.type,
        firstNonEmpty t1.Function.Name t2.Function.Name,
        t1.Function.Arguments ++ t2.Function.Arguments⟩ := by
    simp [runGroup, mergeTCStep_empty t1, hstep2]
  have hmg : mergeGroup i [t1, t2] =
      .ok ⟨some i, firstNonEmpty t1.ID t2.ID, firstNonEmpty t1.type t2.type,
        ⟨firstNonEmpty t1.Function.Name t2.Function.Name,
         t1.Function.Arguments ++ t2.Function.Arguments⟩⟩ := by
    simp [mergeGroup, hrg]
  simp [concatToolCalls, concatToolCallsE, tc_two_chunks_firstAppear t1 t2 i ht1 ht2,
    tc_two_chunks_filterIdx t1 t2 i ht1 ht2, tc_two_chunks_filterNone t1 t2 i ht1 ht2,
    mergeGroups, hmg]

/-- C7: concatenating messages with differing non-empty roles, names or
tool-call ids fails with the corresponding mismatch error, and tool-call
fragments sharing an index fail with the corresponding different-tool-id,
different-tool-type or different-tool-name error when a later fragment
carries a conflicting non-empty value,
while equal or empty later values are accepted with first-non-empty-wins
semantics and concatenated arguments. -/
theorem claim7_atomic_field_mismatches :
    (∀ m1 m2 : Message, m1.Role ≠ "" → m2.Role ≠ "" → m1.Role ≠ m2.Role →
       ConcatMessages [some m1, some m2] = (none, some ConcatError.roleMismatch)) ∧
    (∀ m1 m2 : Message, (m2.Role = "" ∨ m1.Role = "" ∨ m1.Role = m2.Role) →
       m1.Name ≠ "" → m2.Name ≠ "" → m1.Name ≠ m2.Name →
       ConcatMessages [some m1, some m2] = (none, some ConcatError.nameMismatch)) ∧
    (∀ m1 m2 : Message, (m2.Role = "" ∨ m1.Role = "" ∨ m1.Role = m2.Role) →
       (m2.Name = "" ∨ m1.Name = "" ∨ m1.Name = m2.Name) →
       m1.ToolCallID ≠ "" → m2.ToolCallID ≠ "" → m1.ToolCallID ≠ m2.ToolCallID →
       ConcatMessages [some m1, some m2] = (none, some ConcatError.toolCallIDMismatch)) ∧
    (∀ (t1 t2 : ToolCall) (i : Int), t1.Index = some i → t2.Index = some i →
       t1.ID ≠ "" → t2.ID ≠ "" → t1.ID ≠ t2.ID →
       concatToolCalls [t1, t2] = (none, some ConcatError.toolCallDiffID)) ∧
    (∀ (t1 t2 : ToolCall) (i : Int), t1.Index = some i → t2.Index = some i →
       (t2.ID = "" ∨ t1.ID = "" ∨ t1.ID = t2.ID) →
       t1.type ≠ "" → t2.type ≠ "" → t1.type ≠ t2.type →
       concatToolCalls [t1, t2] = (none, some ConcatError.toolCallDiffType)) ∧
    (∀ (t1 t2 : ToolCall) (i : Int), t1.Index = some i → t2.Index = some i →
       (t2.ID = "" ∨ t1.ID = "" ∨ t1.ID = t2.ID) →
       (t2.type = "" ∨ t1.type = "" ∨ t1.type = t2.type) →
       t1.Function.Name ≠ "" → t2.Function.Name ≠ "" →
       t1.Function.Name ≠ t2.Function.Name →
       concatToolCalls [t1, t2] = (none, some ConcatError.toolCallDiffFuncName)) ∧
    (∀ (t1 t2 : ToolCall) (i : Int), t1.Index = some i → t2.Index = some i →
       (t2.ID = "" ∨ t1.ID = "" ∨ t1.ID = t2.ID) →
       (t2.type = "" ∨ t1.type = "" ∨ t1.type = t2.type) →
       (t2.Function.Name = "" ∨ t1.Function.Name = "" ∨
         t1.Function.Name = t2.Function.Name) →
       concatToolCalls [t1, t2] =
         (some [⟨some i, firstNonEmpty t1.ID t2.ID, firstNonEmpty t1.type t2.type,
           ⟨firstNonEmpty t1.Function.Name t2.Function.Name,
            t1.Function.Arguments ++ t2.Function.Arguments⟩⟩], none)) :=
  ⟨msgs_role_conflict, msgs_name_conflict, msgs_tcid_conflict,
   tc_id_conflict, tc_type_conflict, tc_funcName_conflict, tc_pair_accept⟩

theorem claim7_witness :
    ConcatMessages [some { emptyMessage with Role := "user" },
        some { emptyMessage with Role := "assistant" }] =
      (none, some ConcatError.roleMismatch) ∧
    ConcatMessages [some { emptyMessage with Role := "assistant", Name := "n", Content := "1" },
        some { emptyMessage with Role := "assistant", Name := "a", Content := "2" }] =
      (none, some ConcatError.nameMismatch) ∧
    ConcatMessages [some { emptyMessage with ToolCallID := "123" },
        some { emptyMessage with Role := "assistant", ToolCallID := "321" }] =
      (none, some ConcatError.toolCallIDMismatch) ∧
    concatToolCalls [⟨some 0, "tool_call_id", "function", ⟨"tool_name", ""⟩⟩,
        ⟨some 0, "tool_call_id_1", "function", ⟨"tool_name", "call me please"⟩⟩] =
      (none, some ConcatError.toolCallDiffID) ∧
    concatToolCalls [⟨some 0, "tool_call_id", "function", ⟨"tool_name", ""⟩⟩,
        ⟨some 0, "tool_call_id", "function_1", ⟨"tool_name", "x"⟩⟩] =
      (none, some ConcatError.toolCallDiffType) ∧
    concatToolCalls [⟨some 0, "tool_call_id", "function", ⟨"tool_name", ""⟩⟩,
        ⟨some 0, "tool_call_id", "function", ⟨"tool_name_1", "x"⟩⟩] =
      (none, some ConcatError.toolCallDiffFuncName) ∧
    concatToolCalls [⟨some 0, "tool_call_id", "", ⟨"", "ab"⟩⟩,
        ⟨some 0, "", "function", ⟨"", "cd"⟩⟩] =
      (some [⟨some 0, firstNonEmpty "tool_call_id" "", firstNonEmpty "" "function",
        ⟨firstNonEmpty "" "", "ab" ++ "cd"⟩⟩], none) :=
  ⟨claim7_atomic_field_mismatches.1 _ _ (by decide) (by decide) (by decide),
   claim7_atomic_field_mismatches.2.1 _ _ (by decide) (by decide) (by decide) (by decide),
   claim7_atomic_field_mismatches.2.2.1 _ _ (by decide) (by decide) (by decide) (by decide)
     (by decide),
   claim7_atomic_field_mismatches.2.2.2.1 _ _ 0 rfl rfl (by decide) (by decide) (by decide),
   claim7_atomic_field_mismatches.2.2.2.2.1 _ _ 0 rfl rfl (by decide) (by decide) (by decide)
     (by decide),
   claim7_atomic_field_mismatches.2.2.2.2.2.1 _ _ 0 rfl rfl (by decide) (by decide) (by decide)
     (by decide) (by decide),
   claim7_atomic_field_mismatches.2.2.2.2.2.2 _ _ 0 rfl rfl (by decide) (by decide) (by decide)⟩

theorem str_append_assoc (a b c : String) : (a ++ b) ++ c = a ++ (b ++ c) := by
  cases a with
  | mk da =>
    cases b with
    | mk db =>
      cases c with
      | mk dc =>
        show String.mk ((da ++ db) ++ dc) = String.mk (da ++ (db ++ dc))
        rw [List.append_assoc]

theorem firstAppear_aux_mem (chunks : List ToolCall) :
    ∀ (acc : List Int) (i : Int),
      i ∈ chunks.foldl
          (fun acc c =>
            match c.Index with
            | some i => if i ∈ acc then acc else acc ++ [i]
            | none => acc)
          acc ↔
        i ∈ acc ∨ ∃ c ∈ chunks, c.Index = some i := by
  induction chunks with
  | nil => intro acc i; simp
  | cons c rest ih =>
    intro acc i
    simp only [List.foldl_cons]
    rw [ih]
    cases hc : c.Index with
    | none => simp [hc, List.exists_mem_cons_iff]
    | some j =>
      by_cases hj : j ∈ acc
      · simp only [hc, if_pos hj, List.exists_mem_cons_iff, hc]
        constructor
        · rintro (h' | h')
          · exact Or.inl h'
          · exact Or.inr (Or.inr h')
        · rintro (h' | h' | h')
          · exact Or.inl h'
          · cases h'
            exact Or.inl hj
          · exact Or.inr h'
      · simp only [hc, if_neg hj, List.exists_mem_cons_iff, List.mem_append,
          List.mem_singleton, Option.some.injEq]
        constructor
        · rintro ((h' | h') | h')
          · exact Or.inl h'
          · exact Or.inr (Or.inl h'.symm)
          · exact Or.inr (Or.inr h')
        · rintro (h' | h' | h')
          · exact Or.inl (Or.inl h')
          · exact Or.inl (Or.inr h'.symm)
          · exact Or.inr h'

theorem firstAppear_aux_nodup (chunks : List ToolCall) :
    ∀ acc : List Int, acc.Nodup →
      (chunks.foldl
          (fun acc c =>
            match c.Index with
            | some i => if i ∈ acc then acc else acc ++ [i]
            | none => acc)
          acc).Nodup := by
  induction chunks with
  | nil => intro acc h; simpa using h
  | cons c rest ih =>
    intro acc h
    simp only [List.foldl_cons]
    cases hc : c.Index with
    | none =>
      simp only [hc]
      exact ih acc h
    | some j =>
      simp only [hc]
      by_cases hj : j ∈ acc
      · rw [if_pos hj]
        exact ih acc h
      · rw [if_neg hj]
        refine ih _ ?_
        simp [List.nodup_append, h, hj]

theorem firstAppear_mem (chunks : List ToolCall) (i : Int) :
    i ∈ firstAppearIndexes chunks ↔ ∃ c ∈ chunks, c.Index = some i := by
  have := firstAppear_aux_mem chunks [] i
  simpa [firstAppearIndexes] using this

theorem firstAppear_nodup (chunks : List ToolCall) : (firstAppearIndexes chunks).Nodup :=
  firstAppear_aux_nodup chunks [] List.nodup_nil

theorem foldl_args_shift (g : List ToolCall) :
    ∀ s : String,
      g.foldl (fun a c => a ++ c.Function.Arguments) s =
        s ++ g.foldl (fun a c => a ++ c.Function.Arguments) "" := by
  induction g with
  | nil => intro s; exact (str_append_empty s).symm
  | cons c rest ih =>
    intro s
    rw [List.foldl_cons, List.foldl_cons, ih (s ++ c.Function.Arguments),
      ih ("" ++ c.Function.Arguments), str_empty_append, str_append_assoc]

theorem mergeTCStep_ok_args {acc : TCAcc} {c : ToolCall} {acc' : TCAcc}
    (h : mergeTCStep acc c = .ok acc') : acc'.args = acc.args ++ c.Function.Arguments := by
  simp only [mergeTCStep] at h
  cases h1 : mergeAtomicField acc.id c.ID ConcatError.toolCallDiffID with
  | error e => simp [h1] at h
  | ok id =>
    cases h2 : mergeAtomicField acc.ty c.type ConcatError.toolCallDiffType with
    | error e => simp [h1, h2] at h
    | ok ty =>
      cases h3 : mergeAtomicField acc.nm c.Function.Name ConcatError.toolCallDiffFuncName with
      | error e => simp [h1, h2, h3] at h
      | ok nm =>
        simp [h1, h2, h3] at h
        rw [← h]

theorem runGroup_ok_args (g : List ToolCall) :
    ∀ acc acc', runGroup acc g = .ok acc' →
      acc'.args = g.foldl (fun s c => s ++ c.Function.Arguments) acc.args := by
  induction g with
  | nil =>
    intro acc acc' h
    simp [runGroup] at h
    rw [← h]
    rfl
  | cons c rest ih =>
    intro acc acc' h
    simp only [runGroup] at h
    cases hc : mergeTCStep acc c with
    | error e => rw [hc] at h; simp at h
    | ok acc1 =>
      rw [hc] at h
      rw [List.foldl_cons, ← mergeTCStep_ok_args hc]
      exact ih acc1 acc' h

theorem mergeGroup_ok (i : Int) (g : List ToolCall) (tc : ToolCall)
    (h : mergeGroup i g = .ok tc) :
    tc.Index = some i ∧ tc.Function.Arguments = argsJoin g := by
  simp only [mergeGroup] at h
  cases hr : runGroup ⟨"", "", "", ""⟩ g with
  | error e => rw [hr] at h; simp at h
  | ok acc =>
    rw [hr] at h
    simp at h
    have hargs := runGroup_ok_args g ⟨"", "", "", ""⟩ acc hr
    rw [← h]
    exact ⟨rfl, hargs⟩

theorem mergeGroups_ok (chunks : List ToolCall) (is : List Int) :
    ∀ tcs : List ToolCall, mergeGroups is chunks = .ok tcs →
      tcs.map ToolCall.Index = is.map some ∧
      ∀ tc ∈ tcs, ∀ i : Int, tc.Index = some i →
        tc.Function.Arguments =
          argsJoin (chunks.filter (fun c => decide (c.Index = some i))) := by
  induction is with
  | nil =>
    intro tcs h
    simp [mergeGroups] at h
    subst h
    simp
  | cons i rest ih =>
    intro tcs h
    simp only [mergeGroups] at h
    cases hg : mergeGroup i (chunks.filter (fun c => decide (c.Index = some i))) with
    | error e => rw [hg] at h; simp at h
    | ok tc =>
      rw [hg] at h
      cases hgs : mergeGroups rest chunks with
      | error e => rw [hgs] at h; simp at h
      | ok tcs' =>
        rw [hgs] at h
        simp at h
        obtain ⟨hidx, hargs⟩ := mergeGroup_ok i _ tc hg
        obtain ⟨hmap, hall⟩ := ih tcs' hgs
        rw [← h]
        constructor
        · simp [hmap, hidx]
        · intro tc' hmem j hj
          rcases List.mem_cons.mp hmem with h0 | h0
          · subst h0
            rw [hidx] at hj
            cases hj
            exact hargs
          · exact hall tc' h0 j hj

/-- C1: `concatToolCalls` partitions the fragments by index — on success the
output is exactly the index-less fragments, passed through unchanged in
their original relative order and placed first, followed by one merged call
per distinct index, the merged calls ordered by first appearance of their
index, carrying pairwise-distinct indices each of which occurs among the
input fragments, and each merged call's arguments being the in-input-order
concatenation of its group's argument strings. -/
theorem claim1_tool_call_partition (chunks out : List ToolCall)
    (h : concatToolCalls chunks = (some out, none)) :
    ∃ idxCalls : List ToolCall,
      out = chunks.filter (fun c => decide (c.Index = none)) ++ idxCalls ∧
      idxCalls.map ToolCall.Index = (firstAppearIndexes chunks).map some ∧
      (idxCalls.map ToolCall.Index).Nodup ∧
      (∀ i : Int, i ∈ firstAppearIndexes chunks ↔ ∃ c ∈ chunks, c.Index = some i) ∧
      (∀ tc ∈ idxCalls, ∀ i : Int, tc.Index = some i →
        tc.Function.Arguments =
          argsJoin (chunks.filter (fun c => decide (c.Index = some i)))) := by
  unfold concatToolCalls at h
  cases hE : concatToolCallsE chunks with
  | error e => rw [hE] at h; simp at h
  | ok r =>
    rw [hE] at h
    simp at h
    simp only [concatToolCallsE] at hE
    cases hmgs : mergeGroups (firstAppearIndexes chunks) chunks with
    | error e => rw [hmgs] at hE; simp at hE
    | ok merged =>
      rw [hmgs] at hE
      simp at hE
      obtain ⟨hmap, hall⟩ := mergeGroups_ok chunks (firstAppearIndexes chunks) merged hmgs
      refine ⟨merged, ?_, hmap, ?_, fun i => firstAppear_mem chunks i, hall⟩
      · rw [← h, ← hE]
      · rw [hmap]
        exact (firstAppear_nodup chunks).map (Option.some_injective Int)

theorem claim1_witness :
    ∃ idxCalls : List ToolCall,
      tcTestExpected = tcTestChunks.filter (fun c => decide (c.Index = none)) ++ idxCalls ∧
      idxCalls.map ToolCall.Index = (firstAppearIndexes tcTestChunks).map some ∧
      (idxCalls.map ToolCall.Index).Nodup ∧
      (∀ i : Int, i ∈ firstAppearIndexes tcTestChunks ↔ ∃ c ∈ tcTestChunks, c.Index = some i) ∧
      (∀ tc ∈ idxCalls, ∀ i : Int, tc.Index = some i →
        tc.Function.Arguments =
          argsJoin (tcTestChunks.filter (fun c => decide (c.Index = some i)))) :=
  claim1_tool_call_partition tcTestChunks tcTestExpected (by decide)

theorem optStrVal_concatOptStr (x y : Option String) :
    optStrVal (concatOptStr x y) = optStrVal x ++ optStrVal y := by
  cases x <;> cases y <;> simp [concatOptStr, optStrVal]

theorem mergeOutputParts_text_merge (outs : List MessageOutputPart) (s1 s2 : String) :
    mergeOutputParts (outs ++ [textOutPart s1]) [textOutPart s2] =
      outs ++ [textOutPart (s1 ++ s2)] := by
  simp [mergeOutputParts, pushOutputPart, textOutPart, List.reverse_append]

theorem mergeOutputParts_audio_merge (outs : List MessageOutputPart) (a b : MessagePartCommon) :
    mergeOutputParts (outs ++ [audioOutPart a]) [audioOutPart b] =
      outs ++ [audioOutPart (mergeAudioParts a b)] := by
  simp [mergeOutputParts, pushOutputPart, audioOutPart, List.reverse_append]

theorem mergeAudioParts_fields (a b : MessagePartCommon) :
    optStrVal (mergeAudioParts a b).Base64Data =
        optStrVal a.Base64Data ++ optStrVal b.Base64Data ∧
    (mergeAudioParts a b).Extra = extraUnion a.Extra b.Extra ∧
    (b.MIMEType ≠ "" → (mergeAudioParts a b).MIMEType = b.MIMEType) ∧
    (b.MIMEType = "" → (mergeAudioParts a b).MIMEType = a.MIMEType) := by
  refine ⟨optStrVal_concatOptStr a.Base64Data b.Base64Data, rfl, ?_, ?_⟩
  · intro h
    simp [mergeAudioParts, h]
  · intro h
    simp [mergeAudioParts, h]

theorem mergeOutputParts_media_append (outs : List MessageOutputPart) (p : MessageOutputPart)
    (hp : p.type = ChatMessagePartType.imageURL ∨ p.type = ChatMessagePartType.videoURL ∨
      p.type = ChatMessagePartType.fileURL) :
    mergeOutputParts outs [p] = outs ++ [p] := by
  unfold mergeOutputParts
  cases houts : outs.reverse with
  | nil =>
    have h0 : outs = [] := by
      rw [← List.reverse_reverse outs, houts]
      rfl
    subst h0
    simp [pushOutputPart]
  | cons q rest =>
    have h0 : outs = (q :: rest).reverse := by
      rw [← houts, List.reverse_reverse]
    simp only [List.foldl_cons, List.foldl_nil, pushOutputPart]
    rw [if_neg (by rintro ⟨-, h2⟩; rcases hp with h | h | h <;> rw [h] at h2 <;> simp at h2),
      if_neg (by rintro ⟨-, h2⟩; rcases hp with h | h | h <;> rw [h] at h2 <;> simp at h2)]
    rw [List.reverse_cons, h0]

/-- C4: merging assistant-generated multi-content parts, scanned in chunk
order — a text part merges by text concatenation into an immediately
preceding text part; an audio part merges into a preceding audio part with
the base64 payloads concatenated raw, the extra maps unioned (later key
wins) and a non-empty later MIME type taken; image, video and file parts are
always appended as their own complete parts; and `ConcatMessages` on the two
audio chunks of the repository's extra-merging test produces exactly the
merged audio part. -/
theorem claim4_assistant_gen_merge :
    (∀ (outs : List MessageOutputPart) (s1 s2 : String),
       mergeOutputParts (outs ++ [textOutPart s1]) [textOutPart s2] =
         outs ++ [textOutPart (s1 ++ s2)]) ∧
    (∀ (outs : List MessageOutputPart) (a b : MessagePartCommon),
       mergeOutputParts (outs ++ [audioOutPart a]) [audioOutPart b] =
         outs ++ [audioOutPart (mergeAudioParts a b)]) ∧
    (∀ a b : MessagePartCommon,
       optStrVal (mergeAudioParts a b).Base64Data =
           optStrVal a.Base64Data ++ optStrVal b.Base64Data ∧
       (mergeAudioParts a b).Extra = extraUnion a.Extra b.Extra ∧
       (b.MIMEType ≠ "" → (mergeAudioParts a b).MIMEType = b.MIMEType) ∧
       (b.MIMEType = "" → (mergeAudioParts a b).MIMEType = a.MIMEType)) ∧
    (∀ (outs : List MessageOutputPart) (p : MessageOutputPart),
       (p.type = ChatMessagePartType.imageURL ∨ p.type = ChatMessagePartType.videoURL ∨
         p.type = ChatMessagePartType.fileURL) →
       mergeOutputParts outs [p] = outs ++ [p]) ∧
    ConcatMessages [some audioExtraMsg1, some audioExtraMsg2] =
      (some audioExtraMerged, none) :=
  ⟨mergeOutputParts_text_merge, mergeOutputParts_audio_merge, mergeAudioParts_fields,
   mergeOutputParts_media_append, by decide⟩

theorem claim4_witness :
    (mergeAudioParts ⟨none, some "YQ==", "", [("k", "v")]⟩
        ⟨none, some "Yg==", "audio/wav", []⟩).MIMEType = "audio/wav" ∧
    mergeOutputParts [textOutPart "a"]
        [⟨ChatMessagePartType.imageURL, "", some ⟨some "u", none, "", []⟩, none, none, none⟩] =
      [textOutPart "a",
       ⟨ChatMessagePartType.imageURL, "", some ⟨some "u", none, "", []⟩, none, none, none⟩] :=
  ⟨(claim4_assistant_gen_merge.2.2.1 ⟨none, some "YQ==", "", [("k", "v")]⟩
      ⟨none, some "Yg==", "audio/wav", []⟩).2.2.1 (by decide),
   claim4_assistant_gen_merge.2.2.2.1 [textOutPart "a"]
     ⟨ChatMessagePartType.imageURL, "", some ⟨some "u", none, "", []⟩, none, none, none⟩
     (Or.inl rfl)⟩

theorem getCommon_mk (t : ToolPartType) (c : MessagePartCommon) (ht : t ≠ ToolPartType.text) :
    getCommon (mkToolMediaPart t c) = c := by
  cases t
  · exact absurd rfl ht
  all_goals simp [getCommon, mkToolMediaPart]

theorem mergeMediaCommon_conflict (tname : String) (a b : MessagePartCommon)
    (h : (optStrVal a.URL ≠ "" ∧ optStrVal b.URL ≠ "" ∧
            optStrVal a.URL ≠ optStrVal b.URL) ∨
         (optStrVal a.Base64Data ≠ "" ∧ optStrVal b.Base64Data ≠ "" ∧
            optStrVal a.Base64Data ≠ optStrVal b.Base64Data) ∨
         (optStrVal a.URL ≠ "" ∧ optStrVal b.Base64Data ≠ "") ∨
         (optStrVal a.Base64Data ≠ "" ∧ optStrVal b.URL ≠ "")) :
    mergeMediaCommon tname a b = .error (.mediaConflict tname) := by
  unfold mergeMediaCommon
  by_cases h1 : optStrVal a.URL ≠ "" ∧ optStrVal b.URL ≠ "" ∧
      optStrVal a.URL ≠ optStrVal b.URL
  · rw [if_pos h1]
  · rw [if_neg h1]
    by_cases h2 : optStrVal a.Base64Data ≠ "" ∧ optStrVal b.Base64Data ≠ "" ∧
        optStrVal a.Base64Data ≠ optStrVal b.Base64Data
    · rw [if_pos h2]
    · rw [if_neg h2]
      by_cases h3 : optStrVal (if optStrVal b.URL = "" then a.URL else b.URL) ≠ "" ∧
          optStrVal (if optStrVal b.Base64Data = "" then a.Base64Data else b.Base64Data) ≠ ""
      · rw [if_pos h3]
      · exfalso
        rcases h with hc | hc | ⟨ha, hb⟩ | ⟨ha, hb⟩
        · exact h1 hc
        · exact h2 hc
        · refine h3 ⟨?_, ?_⟩
          · by_cases hbU : optStrVal b.URL = ""
            · rw [if_pos hbU]; exact ha
            · rw [if_neg hbU]; exact hbU
          · rw [if_neg hb]; exact hb
        · refine h3 ⟨?_, ?_⟩
          · rw [if_neg hb]; exact hb
          · by_cases hbB : optStrVal b.Base64Data = ""
            · rw [if_pos hbB]; exact ha
            · rw [if_neg hbB]; exact hbB

/-- C5: two `ConcatToolResults` chunks supplying the same rich-media part
type with conflicting non-empty field values — a different non-empty URL, a
different non-empty base64 payload, or a URL in one chunk against a base64
payload in the other — make the call fail with a conflict error naming that
media type. -/
theorem claim5_cross_chunk_media_conflict (t : ToolPartType) (a b : MessagePartCommon)
    (ht : t ≠ ToolPartType.text)
    (h : (optStrVal a.URL ≠ "" ∧ optStrVal b.URL ≠ "" ∧
            optStrVal a.URL ≠ optStrVal b.URL) ∨
         (optStrVal a.Base64Data ≠ "" ∧ optStrVal b.Base64Data ≠ "" ∧
            optStrVal a.Base64Data ≠ optStrVal b.Base64Data) ∨
         (optStrVal a.URL ≠ "" ∧ optStrVal b.Base64Data ≠ "") ∨
         (optStrVal a.Base64Data ≠ "" ∧ optStrVal b.URL ≠ "")) :
    ConcatToolResults [some ⟨[mkToolMediaPart t a]⟩, some ⟨[mkToolMediaPart t b]⟩] =
      (none, some (ConcatError.mediaConflict (partTypeName t))) := by
  have hga := getCommon_mk t a ht
  have hgb := getCommon_mk t b ht
  have hmm := mergeMediaCommon_conflict (partTypeName t) a b h
  have hins : insertToolPart [mkToolMediaPart t a] (mkToolMediaPart t b) =
      .error (ConcatError.mediaConflict (partTypeName t)) := by
    unfold insertToolPart
    have htyb : (mkToolMediaPart t b).type = t := rfl
    rw [if_pos ⟨ht, rfl⟩, hga, hgb, htyb, hmm]
  have h2 : addChunkParts [mkToolMediaPart t a] (mergeAdjacentTexts [mkToolMediaPart t b]) =
      .error (ConcatError.mediaConflict (partTypeName t)) := by
    show (match insertToolPart [mkToolMediaPart t a] (mkToolMediaPart t b) with
          | Except.error e => Except.error e
          | Except.ok acc' => addChunkParts acc' []) =
        Except.error (ConcatError.mediaConflict (partTypeName t))
    rw [hins]
  have hrun : runToolResults [] [some ⟨[mkToolMediaPart t a]⟩, some ⟨[mkToolMediaPart t b]⟩] =
      .error (ConcatError.mediaConflict (partTypeName t)) := by
    show (match addChunkParts [mkToolMediaPart t a] (mergeAdjacentTexts [mkToolMediaPart t b]) with
          | Except.error e => Except.error e
          | Except.ok acc' => runToolResults acc' []) =
        Except.error (ConcatError.mediaConflict (partTypeName t))
    rw [h2]
  unfold ConcatToolResults ConcatToolResultsE
  rw [hrun]

theorem claim5_witness :
    ConcatToolResults
        [some ⟨[mkToolMediaPart ToolPartType.audio ⟨none, some "YXVkaW8x", "audio/wav", []⟩]⟩,
         some ⟨[mkToolMediaPart ToolPartType.audio ⟨none, some "YXVkaW8y", "audio/wav", []⟩]⟩] =
      (none, some (ConcatError.mediaConflict (partTypeName ToolPartType.audio))) :=
  claim5_cross_chunk_media_conflict ToolPartType.audio
    ⟨none, some "YXVkaW8x", "audio/wav", []⟩ ⟨none, some "YXVkaW8y", "audio/wav", []⟩
    (by decide) (by decide)

theorem claim2_amended_witness :
    ((ConcatMessages [none]).1 = none ∧ ((ConcatMessages [none]).2).isSome = true) ∧
    ConcatMessages ([some { emptyMessage with Role := "assistant" }] ++ none :: []) =
      (none, some ConcatError.nilChunk) ∧
    ConcatToolResults [none] = (some ⟨[]⟩, none) :=
  ⟨claim2_amended_nil_chunk_behavior.1 [none] (by decide),
   claim2_amended_nil_chunk_behavior.2.1 [some { emptyMessage with Role := "assistant" }] [] rfl,
   claim2_amended_nil_chunk_behavior.2.2 [none] (by decide)⟩

end Eino
